import Mathlib

/-!
Shallow embedding of the NavX dead-reckoning estimator (src/App.js, the
canonical variant with bias removal, yaw heading and velocity damping:
the component `App` at lines 584-731).

JavaScript numbers are modelled as real numbers; timestamps
(milliseconds from Date.now) are also reals.  The React state/ref pairs
that always hold the same value (bias/biasRef, totalDistance/
totalDistanceRef) are modelled as a single field; the display-only
`gyro` state and the `gyroRef` cache are kept as two fields since the
listener writes both.
-/

namespace NavX

/-- A 3-axis sensor reading `{x, y, z}` (acceleration in m/s² or
angular rate in rad/s). -/
structure Vec3 where
  x : ℝ
  y : ℝ
  z : ℝ

/-- A recorded trajectory vertex `{x, y}` in world coordinates. -/
structure PathPoint where
  x : ℝ
  y : ℝ

/-- The whole mutable state of the `App` component: React state hooks
and refs that the dead-reckoning logic reads and writes. -/
structure DRState where
  /-- latest raw accelerometer sample, for display (`accel` state). -/
  accel : Vec3
  /-- latest raw gyroscope sample, for display (`gyro` state). -/
  gyro : Vec3
  /-- `isTracking` state: session state machine, true = Tracking. -/
  isTracking : Bool
  /-- `path` state: the trajectory, created as `[{x:0,y:0}]`. -/
  path : List PathPoint
  /-- `totalDistance` state and `totalDistanceRef`. -/
  totalDistance : ℝ
  /-- calibration bias (`bias` state and `biasRef`). -/
  bias : Vec3
  /-- `velocityRef.current.vx`: world-frame velocity x. -/
  vx : ℝ
  /-- `velocityRef.current.vy`: world-frame velocity y. -/
  vy : ℝ
  /-- `positionRef.current.x`: world-frame position x. -/
  x : ℝ
  /-- `positionRef.current.y`: world-frame position y. -/
  y : ℝ
  /-- `lastTimeRef.current`: timestamp of the last accepted sample,
  `none` models JavaScript null. -/
  lastTime : Option ℝ
  /-- `gyroRef.current`: latest gyroscope sample used by integration. -/
  gyroRef : Vec3
  /-- `headingRef.current`: yaw angle in radians. -/
  heading : ℝ

/-- Initial state of the component: all hooks/refs as initialized at
lines 586-608 of src/App.js. -/
noncomputable def initialState : DRState :=
  { accel := ⟨0, 0, 0⟩
    gyro := ⟨0, 0, 0⟩
    isTracking := false
    path := [⟨0, 0⟩]
    totalDistance := 0
    bias := ⟨0, 0, 0⟩
    vx := 0
    vy := 0
    x := 0
    y := 0
    lastTime := none
    gyroRef := ⟨0, 0, 0⟩
    heading := 0 }

/-- Heading update of one integration step (lines 644-648):
`headingRef.current += yawRate * dt` followed by the two sequential
wrap conditionals `if (> Math.PI) -= 2π` and `if (< -Math.PI) += 2π`.
The JavaScript `gyroRef.current.z || 0` is the identity on real
numbers (a zero yaw rate is replaced by the literal 0), so the rate is
passed through unchanged. -/
noncomputable def headingStep (h yawRate dt : ℝ) : ℝ :=
  let h1 := h + yawRate * dt
  let h2 := if h1 > Real.pi then h1 - 2 * Real.pi else h1
  if h2 < -Real.pi then h2 + 2 * Real.pi else h2

/-- Heading after running `headingStep` over a list of
(yaw-rate, dt) pairs from an initial heading. -/
noncomputable def headingRun (h0 : ℝ) (steps : List (ℝ × ℝ)) : ℝ :=
  steps.foldl (fun h p => headingStep h p.1 p.2) h0

/-- The trajectory/distance update done inside `setPath` (lines
683-697): read the last point (`prev[prev.length-1] || {x:0,y:0}`),
compute the Euclidean distance `Math.hypot(dx, dy)` to the new
position, and append plus accumulate distance only when it exceeds
the 0.005 m threshold.  Returns the new (path, totalDistance). -/
noncomputable def considerStep (path : List PathPoint) (total : ℝ)
    (x y : ℝ) : List PathPoint × ℝ :=
  let last := path.getLast?.getD ⟨0, 0⟩
  let dist := Real.sqrt ((x - last.x) ^ 2 + (y - last.y) ^ 2)
  if dist > 0.005 then (path ++ [⟨x, y⟩], total + dist)
  else (path, total)

/-- Body of `updateDeadReckoning` past the two guards (lines 641-697):
record the timestamp, then run the heading, bias-correction, rotation,
kinematic and path-sampling steps in the order of the source, given
the already-computed `dt`. -/
noncomputable def integrationStep (s : DRState) (accelData : Vec3)
    (now dt : ℝ) : DRState :=
  let heading := headingStep s.heading s.gyroRef.z dt
  let axBody := accelData.x - s.bias.x
  let ayBody := accelData.y - s.bias.y
  let cosH := Real.cos heading
  let sinH := Real.sin heading
  let axWorld := axBody * cosH - ayBody * sinH
  let ayWorld := axBody * sinH + ayBody * cosH
  let damping : ℝ := 0.98
  let vx := (s.vx + axWorld * dt) * damping
  let vy := (s.vy + ayWorld * dt) * damping
  let x := s.x + vx * dt
  let y := s.y + vy * dt
  let pt := considerStep s.path s.totalDistance x y
  { s with lastTime := some now
           heading := heading
           vx := vx
           vy := vy
           x := x
           y := y
           path := pt.1
           totalDistance := pt.2 }

/-- `updateDeadReckoning(accelData)` (lines 633-698), with the wall
clock `now = Date.now()` passed as an argument.  Bootstrap when
`lastTimeRef.current == null`; discard when `dt <= 0` (note the code
returns before `lastTimeRef.current = now`, so a discarded sample
leaves the timestamp untouched); otherwise run `integrationStep`. -/
noncomputable def updateDeadReckoning (s : DRState) (accelData : Vec3)
    (now : ℝ) : DRState :=
  match s.lastTime with
  | none => { s with lastTime := some now }
  | some t0 =>
    let dt := (now - t0) / 1000
    if dt ≤ 0 then s
    else integrationStep s accelData now dt

/-- The accelerometer listener (lines 614-619): always update the raw
display reading, and run the integration only while Tracking. -/
noncomputable def accelListener (s : DRState) (data : Vec3) (now : ℝ) :
    DRState :=
  let s1 := { s with accel := data }
  if s1.isTracking then updateDeadReckoning s1 data now else s1

/-- The gyroscope listener (lines 621-624): update the display reading
and overwrite the cached latest gyroscope sample; no integration. -/
def gyroListener (s : DRState) (data : Vec3) : DRState :=
  { s with gyro := data, gyroRef := data }

/-- `resetState` (lines 700-708): zero velocity, position, heading and
distance, clear the timestamp, reset the trajectory to the origin. -/
def resetState (s : DRState) : DRState :=
  { s with vx := 0
           vy := 0
           x := 0
           y := 0
           lastTime := none
           heading := 0
           totalDistance := 0
           path := [⟨0, 0⟩] }

/-- `handleStart` (lines 710-713): reset, then start tracking. -/
def handleStart (s : DRState) : DRState :=
  { resetState s with isTracking := true }

/-- `handleStop` (lines 715-718): stop tracking and clear the
timestamp; everything else is untouched. -/
def handleStop (s : DRState) : DRState :=
  { s with isTracking := false, lastTime := none }

/-- `handleReset` (lines 720-723): stop tracking and reset. -/
def handleReset (s : DRState) : DRState :=
  resetState { s with isTracking := false }

/-- `handleCalibrate` (lines 725-731): snapshot the latest raw
accelerometer reading as the bias, then `handleReset`. -/
def handleCalibrate (s : DRState) : DRState :=
  handleReset { s with bias := s.accel }

/-- States of the component reachable from the initial state through
sensor callbacks and UI commands. -/
inductive Reachable : DRState → Prop
  | init : Reachable initialState
  | accel (s : DRState) (d : Vec3) (now : ℝ) :
      Reachable s → Reachable (accelListener s d now)
  | gyro (s : DRState) (d : Vec3) :
      Reachable s → Reachable (gyroListener s d)
  | start (s : DRState) : Reachable s → Reachable (handleStart s)
  | stop (s : DRState) : Reachable s → Reachable (handleStop s)
  | reset (s : DRState) : Reachable s → Reachable (handleReset s)
  | calibrate (s : DRState) : Reachable s → Reachable (handleCalibrate s)

/-! ### Basic step lemmas -/

/-- One heading step keeps the angle in [-π, π], provided the step
changes the heading by at most one full turn. -/
theorem headingStep_abs_le {h r d : ℝ} (hh : |h| ≤ Real.pi)
    (hrd : |r * d| ≤ 2 * Real.pi) : |headingStep h r d| ≤ Real.pi := by
  have hπ := Real.pi_pos
  rw [abs_le] at hh hrd ⊢
  unfold headingStep
  dsimp only
  split_ifs with h1 h2 h3 <;> constructor <;> simp only at * <;> linarith

/-- Folding heading steps keeps the angle in [-π, π]. -/
theorem headingRun_abs_le {h0 : ℝ} (steps : List (ℝ × ℝ))
    (hh : |h0| ≤ Real.pi)
    (hs : ∀ p ∈ steps, |p.1 * p.2| ≤ 2 * Real.pi) :
    |headingRun h0 steps| ≤ Real.pi := by
  induction steps generalizing h0 with
  | nil => simpa [headingRun] using hh
  | cons p ps ih =>
      rw [headingRun, List.foldl_cons]
      exact ih (headingStep_abs_le hh (hs p (by simp)))
        (fun q hq => hs q (by simp [hq]))

/-- A Tracking listener call is the integration routine on the state
with the display reading refreshed. -/
theorem accelListener_tracking (s : DRState) (d : Vec3) (now : ℝ)
    (hT : s.isTracking = true) :
    accelListener s d now = updateDeadReckoning { s with accel := d } d now := by
  simp [accelListener, hT]

/-- With a recorded previous timestamp and a positive time step, the
integration routine runs the full step. -/
theorem updateDR_pos (s : DRState) (d : Vec3) (now t0 : ℝ)
    (hL : s.lastTime = some t0) (hdt : ¬ ((now - t0) / 1000 ≤ 0)) :
    updateDeadReckoning s d now = integrationStep s d now ((now - t0) / 1000) := by
  rw [updateDeadReckoning, hL]
  simp [hdt]

/-- With a recorded previous timestamp and a non-positive time step,
the integration routine returns the state unchanged. -/
theorem updateDR_nonpos (s : DRState) (d : Vec3) (now t0 : ℝ)
    (hL : s.lastTime = some t0) (hdt : (now - t0) / 1000 ≤ 0) :
    updateDeadReckoning s d now = s := by
  rw [updateDeadReckoning, hL]
  simp [hdt]

/-! ### Claim C5: Idle samples are display-only -/

/-- C5: while the session state is Idle, an incoming accelerometer
sample updates only the latest raw reading for display and never
triggers an integration step: heading, velocity, position, trajectory
and totalDistance are unchanged. -/
theorem idle_sample_display_only (s : DRState) (d : Vec3) (now : ℝ)
    (hT : s.isTracking = false) :
    accelListener s d now = { s with accel := d } := by
  simp [accelListener, hT]

/-- C5 witness: the initial state is Idle and a sample there only
refreshes the displayed raw reading. -/
theorem idle_sample_display_only_witness :
    initialState.isTracking = false ∧
      accelListener initialState ⟨1, 2, 3⟩ 0
        = { initialState with accel := ⟨1, 2, 3⟩ } :=
  ⟨rfl, idle_sample_display_only initialState ⟨1, 2, 3⟩ 0 rfl⟩

/-! ### Claim C9: Stop -/

/-- C9: Stop, invoked while Tracking, transitions the session to Idle
and clears lastSampleTimestamp, leaving every other field (trajectory,
totalDistance, velocity, position, heading, bias, raw readings)
unchanged. -/
theorem stop_transition (s : DRState) (hT : s.isTracking = true) :
    handleStop s = { s with isTracking := false, lastTime := none } := rfl

/-- C9 witness: stopping right after a Start. -/
theorem stop_transition_witness :
    (handleStart initialState).isTracking = true ∧
      handleStop (handleStart initialState)
        = { handleStart initialState with isTracking := false, lastTime := none } :=
  ⟨rfl, stop_transition (handleStart initialState) rfl⟩

/-! ### Claim C7: Calibrate -/

/-- C7: in any state whose most recent raw accelerometer sample is
(0.2, -0.1, 9.8), Calibrate sets the bias to (0.2, -0.1, 9.8) and
performs the same clearing as Reset: trajectory = [{0,0}], tracking
forced off, totalDistance = 0, velocity/position/heading = 0,
lastSampleTimestamp unset. -/
theorem calibrate_sets_bias_and_resets (s : DRState)
    (hA : s.accel = ⟨0.2, -0.1, 9.8⟩) :
    handleCalibrate s =
      { s with bias := ⟨0.2, -0.1, 9.8⟩
               isTracking := false
               vx := 0
               vy := 0
               x := 0
               y := 0
               lastTime := none
               heading := 0
               totalDistance := 0
               path := [⟨0, 0⟩] } := by
  unfold handleCalibrate handleReset resetState
  rw [hA]

/-- C7 witness: calibrating from a state displaying (0.2, -0.1, 9.8). -/
theorem calibrate_sets_bias_and_resets_witness :
    ({ initialState with accel := ⟨0.2, -0.1, 9.8⟩ } : DRState).accel
        = ⟨0.2, -0.1, 9.8⟩ ∧
      handleCalibrate { initialState with accel := ⟨0.2, -0.1, 9.8⟩ }
        = { ({ initialState with accel := ⟨0.2, -0.1, 9.8⟩ } : DRState) with
              bias := ⟨0.2, -0.1, 9.8⟩
              isTracking := false
              vx := 0
              vy := 0
              x := 0
              y := 0
              lastTime := none
              heading := 0
              totalDistance := 0
              path := [⟨0, 0⟩] } :=
  ⟨rfl, calibrate_sets_bias_and_resets _ rfl⟩

/-! ### Claim C1: non-positive dt discards the sample -/

/-- C1 (amended): while Tracking with lastSampleTimestamp set, on_accel
computes dt = (sample.t - lastSampleTimestamp)/1000; if dt ≤ 0 the
sample is discarded without mutating any integrator state, including
lastSampleTimestamp, and only the displayed raw reading changes; only
when dt > 0 is lastSampleTimestamp updated to sample.t. -/
theorem nonpos_dt_discards (s : DRState) (d : Vec3) (now t0 : ℝ)
    (hT : s.isTracking = true) (hL : s.lastTime = some t0) :
    ((now - t0) / 1000 ≤ 0 →
        accelListener s d now = { s with accel := d }) ∧
      (0 < (now - t0) / 1000 →
        (accelListener s d now).lastTime = some now) := by
  constructor
  · intro hdt
    rw [accelListener_tracking s d now hT]
    exact updateDR_nonpos { s with accel := d } d now t0 hL hdt
  · intro hdt
    rw [accelListener_tracking s d now hT,
      updateDR_pos { s with accel := d } d now t0 hL (not_le.mpr hdt)]
    rfl

/-- C1 witness: a sample 5 ms older than the recorded timestamp is
discarded wholesale; a later sample advances the timestamp. -/
theorem nonpos_dt_discards_witness :
    ((5 : ℝ) - 10) / 1000 ≤ 0 ∧
      accelListener { initialState with isTracking := true, lastTime := some 10 }
          ⟨1, 2, 3⟩ 5
        = { ({ initialState with isTracking := true, lastTime := some 10 } : DRState) with
              accel := ⟨1, 2, 3⟩ } :=
  ⟨by norm_num,
    (nonpos_dt_discards _ ⟨1, 2, 3⟩ 5 10 rfl rfl).1 (by norm_num)⟩

/-- C1 counterexample: the claim as stated says lastSampleTimestamp is
updated to sample.t even when dt ≤ 0, but on an out-of-order sample
(recorded timestamp 10, sample at 5) the code returns before the
timestamp assignment: lastSampleTimestamp stays 10, not 5. -/
theorem nonpos_dt_discards_cex :
    (accelListener { initialState with isTracking := true, lastTime := some 10 }
        ⟨0, 0, 0⟩ 5).lastTime = some 10 ∧
      ¬ (accelListener { initialState with isTracking := true, lastTime := some 10 }
          ⟨0, 0, 0⟩ 5).lastTime = some 5 := by
  have h : (accelListener { initialState with isTracking := true, lastTime := some 10 }
      ⟨0, 0, 0⟩ 5).lastTime = some 10 := by
    rw [accelListener_tracking _ _ _ rfl, updateDR_nonpos _ _ _ 10 rfl (by norm_num)]
  refine ⟨h, ?_⟩
  rw [h]
  intro hc
  have : (10 : ℝ) = 5 := by simpa using hc
  norm_num at this

/-! ### Claim C2: heading wrap -/

/-- C2 (amended): starting from the reset heading 0, for every sequence
of yaw-rate/dt pairs each changing the heading by at most one wrap of
2π, the heading after every integration step lies in the closed
interval [-π, π] (the value -π itself is reachable, so the interval is
closed on the left, not half-open). -/
theorem heading_wrap_invariant (steps : List (ℝ × ℝ))
    (hs : ∀ p ∈ steps, |p.1 * p.2| ≤ 2 * Real.pi) (n : ℕ) :
    -Real.pi ≤ headingRun 0 (steps.take n) ∧
      headingRun 0 (steps.take n) ≤ Real.pi := by
  have h := @headingRun_abs_le 0 (steps.take n)
    (by rw [abs_zero]; exact Real.pi_nonneg)
    (fun p hp => hs p (List.mem_of_mem_take hp))
  rwa [abs_le] at h

/-- C2 witness: a single step of yaw rate 1 rad/s over 1 s. -/
theorem heading_wrap_invariant_witness :
    (∀ p ∈ [((1 : ℝ), (1 : ℝ))], |p.1 * p.2| ≤ 2 * Real.pi) ∧
      (-Real.pi ≤ headingRun 0 ([((1 : ℝ), (1 : ℝ))].take 1) ∧
        headingRun 0 ([((1 : ℝ), (1 : ℝ))].take 1) ≤ Real.pi) := by
  have hp : ∀ p ∈ [((1 : ℝ), (1 : ℝ))], |p.1 * p.2| ≤ 2 * Real.pi := by
    intro p hmem
    have hπ := Real.pi_gt_three
    simp only [List.mem_singleton] at hmem
    subst hmem
    rw [mul_one, abs_one]
    linarith
  exact ⟨hp, heading_wrap_invariant _ hp 1⟩

/-- C2 counterexample: one step of yaw-rate -π over dt = 1 (well within
one wrap of 2π) takes the heading from 0 to exactly -π, which is not in
the half-open interval (-π, π] the claim asserts. -/
theorem heading_wrap_cex :
    |(-Real.pi) * 1| ≤ 2 * Real.pi ∧
      headingRun 0 [(-Real.pi, 1)] = -Real.pi ∧
      ¬ (-Real.pi < headingRun 0 [(-Real.pi, 1)]) := by
  have hπ := Real.pi_pos
  have hval : headingRun 0 [(-Real.pi, 1)] = -Real.pi := by
    simp only [headingRun, List.foldl_cons, List.foldl_nil, headingStep]
    rw [show (0 : ℝ) + -Real.pi * 1 = -Real.pi by ring]
    rw [if_neg (by linarith : ¬ (-Real.pi > Real.pi))]
    rw [if_neg (lt_irrefl (-Real.pi))]
  refine ⟨?_, hval, ?_⟩
  · rw [mul_one, abs_neg, abs_of_pos hπ]
    linarith
  · rw [hval]
    exact lt_irrefl _

/-! ### Claim C3: kinematic integration formula -/

/-- C3: every integration step with dt > 0 updates velocity and
position exactly as vx = (vx + axWorld*dt) * 0.98,
vy = (vy + ayWorld*dt) * 0.98, then x = x + vx*dt, y = y + vy*dt,
with the fixed per-step damping factor 0.98 applied regardless of dt
and no velocity clamp; axWorld/ayWorld are the bias-corrected inputs
rotated by the updated heading. -/
theorem kinematic_step_formula (s : DRState) (d : Vec3) (now t0 : ℝ)
    (hT : s.isTracking = true) (hL : s.lastTime = some t0)
    (hdt : 0 < (now - t0) / 1000) :
    (accelListener s d now).vx
        = (s.vx + ((d.x - s.bias.x)
              * Real.cos (headingStep s.heading s.gyroRef.z ((now - t0) / 1000))
            - (d.y - s.bias.y)
              * Real.sin (headingStep s.heading s.gyroRef.z ((now - t0) / 1000)))
            * ((now - t0) / 1000)) * 0.98 ∧
      (accelListener s d now).vy
        = (s.vy + ((d.x - s.bias.x)
              * Real.sin (headingStep s.heading s.gyroRef.z ((now - t0) / 1000))
            + (d.y - s.bias.y)
              * Real.cos (headingStep s.heading s.gyroRef.z ((now - t0) / 1000)))
            * ((now - t0) / 1000)) * 0.98 ∧
      (accelListener s d now).x
        = s.x + (accelListener s d now).vx * ((now - t0) / 1000) ∧
      (accelListener s d now).y
        = s.y + (accelListener s d now).vy * ((now - t0) / 1000) := by
  rw [accelListener_tracking s d now hT,
    updateDR_pos { s with accel := d } d now t0 hL (not_le.mpr hdt)]
  exact ⟨rfl, rfl, rfl, rfl⟩

/-- A Tracking state with a recorded timestamp 0, used as a concrete
input by witnesses. -/
noncomputable def trackingAt0 : DRState :=
  { initialState with isTracking := true, lastTime := some 0 }

/-- C3 witness: one step at dt = 0.05 s from the fresh tracking state
with body acceleration (1, 2, 3). -/
theorem kinematic_step_formula_witness :
    (0 : ℝ) < ((50 : ℝ) - 0) / 1000 ∧
      ((accelListener trackingAt0 ⟨1, 2, 3⟩ 50).vx
          = ((0 : ℝ) + (((1 : ℝ) - 0)
                * Real.cos (headingStep 0 0 (((50 : ℝ) - 0) / 1000))
              - ((2 : ℝ) - 0)
                * Real.sin (headingStep 0 0 (((50 : ℝ) - 0) / 1000)))
              * (((50 : ℝ) - 0) / 1000)) * 0.98 ∧
        (accelListener trackingAt0 ⟨1, 2, 3⟩ 50).vy
          = ((0 : ℝ) + (((1 : ℝ) - 0)
                * Real.sin (headingStep 0 0 (((50 : ℝ) - 0) / 1000))
              + ((2 : ℝ) - 0)
                * Real.cos (headingStep 0 0 (((50 : ℝ) - 0) / 1000)))
              * (((50 : ℝ) - 0) / 1000)) * 0.98 ∧
        (accelListener trackingAt0 ⟨1, 2, 3⟩ 50).x
          = (0 : ℝ) + (accelListener trackingAt0 ⟨1, 2, 3⟩ 50).vx
              * (((50 : ℝ) - 0) / 1000) ∧
        (accelListener trackingAt0 ⟨1, 2, 3⟩ 50).y
          = (0 : ℝ) + (accelListener trackingAt0 ⟨1, 2, 3⟩ 50).vy
              * (((50 : ℝ) - 0) / 1000)) :=
  ⟨by norm_num,
    kinematic_step_formula trackingAt0 ⟨1, 2, 3⟩ 50 0 rfl rfl (by norm_num)⟩

/-! ### Claim C4: path-sampler threshold -/

/-- C4: the sampler appends the new point and adds its Euclidean
distance d from the last recorded point to totalDistance exactly when
d > 0.005 m, and otherwise leaves trajectory and totalDistance
unchanged; in particular a delta of exactly 0.004 m is discarded while
a delta of exactly 0.006 m is appended with its distance added. -/
theorem sampler_threshold :
    (∀ (path : List PathPoint) (total x y : ℝ) (L : PathPoint),
        path.getLast? = some L →
        (Real.sqrt ((x - L.x) ^ 2 + (y - L.y) ^ 2) > 0.005 →
          considerStep path total x y
            = (path ++ [⟨x, y⟩],
               total + Real.sqrt ((x - L.x) ^ 2 + (y - L.y) ^ 2))) ∧
          (¬ Real.sqrt ((x - L.x) ^ 2 + (y - L.y) ^ 2) > 0.005 →
            considerStep path total x y = (path, total))) ∧
      considerStep [⟨0, 0⟩] 0 0.004 0 = ([⟨0, 0⟩], 0) ∧
      considerStep [⟨0, 0⟩] 0 0.006 0 = ([⟨0, 0⟩, ⟨0.006, 0⟩], 0.006) := by
  refine ⟨?_, ?_, ?_⟩
  · intro path total x y L hL
    simp only [considerStep, hL, Option.getD_some]
    constructor
    · intro hgt
      rw [if_pos hgt]
    · intro hle
      rw [if_neg hle]
  · have e4 : Real.sqrt (((0.004 : ℝ) - 0) ^ 2 + ((0 : ℝ) - 0) ^ 2) = 0.004 := by
      rw [show (((0.004 : ℝ) - 0) ^ 2 + ((0 : ℝ) - 0) ^ 2) = 0.004 ^ 2 by norm_num]
      exact Real.sqrt_sq (by norm_num)
    simp only [considerStep]
    rw [show ([(⟨0, 0⟩ : PathPoint)].getLast?.getD ⟨0, 0⟩) = ⟨0, 0⟩ from rfl]
    rw [e4, if_neg (by norm_num : ¬ (0.004 : ℝ) > 0.005)]
  · have e6 : Real.sqrt (((0.006 : ℝ) - 0) ^ 2 + ((0 : ℝ) - 0) ^ 2) = 0.006 := by
      rw [show (((0.006 : ℝ) - 0) ^ 2 + ((0 : ℝ) - 0) ^ 2) = 0.006 ^ 2 by norm_num]
      exact Real.sqrt_sq (by norm_num)
    simp only [considerStep]
    rw [show ([(⟨0, 0⟩ : PathPoint)].getLast?.getD ⟨0, 0⟩) = ⟨0, 0⟩ from rfl]
    rw [e6, if_pos (by norm_num : (0.006 : ℝ) > 0.005)]
    norm_num

/-- C4 witness: instantiating the threshold contract on a singleton
trajectory with a 0.004 m delta, whose distance is below threshold. -/
theorem sampler_threshold_witness :
    ([(⟨0, 0⟩ : PathPoint)].getLast? = some ⟨0, 0⟩) ∧
      considerStep [⟨0, 0⟩] 0 0.004 0 = ([⟨0, 0⟩], 0) :=
  ⟨rfl,
    (sampler_threshold.1 [⟨0, 0⟩] 0 0.004 0 ⟨0, 0⟩ rfl).2 (by
      show ¬ Real.sqrt (((0.004 : ℝ) - 0) ^ 2 + ((0 : ℝ) - 0) ^ 2) > 0.005
      rw [show (((0.004 : ℝ) - 0) ^ 2 + ((0 : ℝ) - 0) ^ 2) = 0.004 ^ 2
          by norm_num]
      rw [Real.sqrt_sq (by norm_num)]
      norm_num)⟩

/-! ### Projection lemmas for the integration body -/

theorem integrationStep_heading (s : DRState) (d : Vec3) (now dt : ℝ) :
    (integrationStep s d now dt).heading
      = headingStep s.heading s.gyroRef.z dt := rfl

theorem integrationStep_vx (s : DRState) (d : Vec3) (now dt : ℝ) :
    (integrationStep s d now dt).vx
      = (s.vx + ((d.x - s.bias.x)
            * Real.cos (headingStep s.heading s.gyroRef.z dt)
          - (d.y - s.bias.y)
            * Real.sin (headingStep s.heading s.gyroRef.z dt)) * dt) * 0.98 := rfl

theorem integrationStep_vy (s : DRState) (d : Vec3) (now dt : ℝ) :
    (integrationStep s d now dt).vy
      = (s.vy + ((d.x - s.bias.x)
            * Real.sin (headingStep s.heading s.gyroRef.z dt)
          + (d.y - s.bias.y)
            * Real.cos (headingStep s.heading s.gyroRef.z dt)) * dt) * 0.98 := rfl

theorem integrationStep_x (s : DRState) (d : Vec3) (now dt : ℝ) :
    (integrationStep s d now dt).x
      = s.x + (integrationStep s d now dt).vx * dt := rfl

theorem integrationStep_y (s : DRState) (d : Vec3) (now dt : ℝ) :
    (integrationStep s d now dt).y
      = s.y + (integrationStep s d now dt).vy * dt := rfl

/-- A zero yaw rate leaves the heading at zero. -/
theorem headingStep_zero (dt : ℝ) : headingStep 0 0 dt = 0 := by
  have hπ := Real.pi_pos
  unfold headingStep
  dsimp only
  rw [show (0 : ℝ) + 0 * dt = 0 by ring]
  rw [if_neg (by linarith : ¬ ((0 : ℝ) > Real.pi))]
  rw [if_neg (by linarith : ¬ ((0 : ℝ) < -Real.pi))]

/-! ### Claim C6: scenario B simulation -/

/-- Scenario B: from the freshly started session, accelerometer samples
with constant body-frame reading (1, 0, 0), no gyroscope samples (zero
yaw rate, zero bias) and wall-clock times 0, 50 ms, 100 ms, ...
(dt = 0.05 s); `scenarioB n` is the state after `n` samples (the first
sample only bootstraps the timestamp). -/
noncomputable def scenarioB : ℕ → DRState
  | 0 => handleStart initialState
  | n + 1 => accelListener (scenarioB n) ⟨1, 0, 0⟩ (50 * (n : ℝ))

/-- Damped velocity recurrence of scenario B (world x-axis). -/
noncomputable def vxB : ℕ → ℝ
  | 0 => 0
  | n + 1 => (vxB n + 1 * 0.05) * 0.98

/-- Damped position recurrence of scenario B (world x-axis). -/
noncomputable def xB : ℕ → ℝ
  | 0 => 0
  | n + 1 => xB n + vxB (n + 1) * 0.05

/-- Undamped analytic counterpart: the same velocity recurrence with
damping factor 1. -/
noncomputable def uvxB : ℕ → ℝ
  | 0 => 0
  | n + 1 => (uvxB n + 1 * 0.05) * 1

/-- Undamped analytic counterpart of the position recurrence. -/
noncomputable def uxB : ℕ → ℝ
  | 0 => 0
  | n + 1 => uxB n + uvxB (n + 1) * 0.05

/-- Simulation invariant for scenario B: after sample n+1 the session
is Tracking with zero heading, zero cached yaw rate, zero bias, the
recorded timestamp of sample n+1, velocity (vxB n, 0) and position
(xB n, 0). -/
theorem scenarioB_invariant (n : ℕ) :
    (scenarioB (n + 1)).isTracking = true ∧
      (scenarioB (n + 1)).heading = 0 ∧
      (scenarioB (n + 1)).gyroRef.z = 0 ∧
      (scenarioB (n + 1)).bias.x = 0 ∧
      (scenarioB (n + 1)).bias.y = 0 ∧
      (scenarioB (n + 1)).lastTime = some (50 * (n : ℝ)) ∧
      (scenarioB (n + 1)).vx = vxB n ∧
      (scenarioB (n + 1)).vy = 0 ∧
      (scenarioB (n + 1)).x = xB n ∧
      (scenarioB (n + 1)).y = 0 := by
  induction n with
  | zero =>
      exact ⟨rfl, rfl, rfl, rfl, rfl, rfl, rfl, rfl, rfl, rfl⟩
  | succ n ih =>
      obtain ⟨hT, hH, hG, hBx, hBy, hL, hVx, hVy, hX, hY⟩ := ih
      have h50 : (50 * (((n + 1) : ℕ) : ℝ) - 50 * ((n : ℕ) : ℝ)) / 1000
          = 0.05 := by
        push_cast
        ring_nf
      have hstep : scenarioB (n + 2)
          = integrationStep { scenarioB (n + 1) with accel := ⟨1, 0, 0⟩ }
              ⟨1, 0, 0⟩ (50 * (((n + 1) : ℕ) : ℝ))
              ((50 * (((n + 1) : ℕ) : ℝ) - 50 * ((n : ℕ) : ℝ)) / 1000) := by
        rw [show scenarioB (n + 2)
            = accelListener (scenarioB (n + 1)) ⟨1, 0, 0⟩
                (50 * (((n + 1) : ℕ) : ℝ)) from rfl]
        rw [accelListener_tracking _ _ _ hT]
        exact updateDR_pos _ _ _ (50 * ((n : ℕ) : ℝ)) hL
          (by rw [h50]; norm_num)
      rw [hstep]
      refine ⟨hT, ?_, hG, hBx, hBy, rfl, ?_, ?_, ?_, ?_⟩
      · rw [integrationStep_heading]
        show headingStep (scenarioB (n + 1)).heading
          (scenarioB (n + 1)).gyroRef.z _ = 0
        rw [hH, hG, headingStep_zero]
      · rw [integrationStep_vx]
        show ((scenarioB (n + 1)).vx + (((1 : ℝ) - (scenarioB (n + 1)).bias.x)
            * Real.cos (headingStep (scenarioB (n + 1)).heading
                (scenarioB (n + 1)).gyroRef.z _)
          - ((0 : ℝ) - (scenarioB (n + 1)).bias.y)
            * Real.sin (headingStep (scenarioB (n + 1)).heading
                (scenarioB (n + 1)).gyroRef.z _)) * _) * 0.98 = vxB (n + 1)
        rw [hH, hG, hBx, hBy, hVx, headingStep_zero, Real.cos_zero,
          Real.sin_zero, h50]
        show (vxB n + ((1 - 0) * 1 - (0 - 0) * 0) * 0.05) * 0.98
          = vxB (n + 1)
        rw [show vxB (n + 1) = (vxB n + 1 * 0.05) * 0.98 from rfl]
        ring
      · rw [integrationStep_vy]
        show ((scenarioB (n + 1)).vy + (((1 : ℝ) - (scenarioB (n + 1)).bias.x)
            * Real.sin (headingStep (scenarioB (n + 1)).heading
                (scenarioB (n + 1)).gyroRef.z _)
          + ((0 : ℝ) - (scenarioB (n + 1)).bias.y)
            * Real.cos (headingStep (scenarioB (n + 1)).heading
                (scenarioB (n + 1)).gyroRef.z _)) * _) * 0.98 = 0
        rw [hH, hG, hBx, hBy, hVy, headingStep_zero, Real.cos_zero,
          Real.sin_zero]
        ring
      · rw [integrationStep_x, integrationStep_vx]
        show (scenarioB (n + 1)).x + ((scenarioB (n + 1)).vx
            + (((1 : ℝ) - (scenarioB (n + 1)).bias.x)
              * Real.cos (headingStep (scenarioB (n + 1)).heading
                  (scenarioB (n + 1)).gyroRef.z _)
            - ((0 : ℝ) - (scenarioB (n + 1)).bias.y)
              * Real.sin (headingStep (scenarioB (n + 1)).heading
                  (scenarioB (n + 1)).gyroRef.z _)) * _) * 0.98 * _
          = xB (n + 1)
        rw [hH, hG, hBx, hBy, hVx, hX, headingStep_zero, Real.cos_zero,
          Real.sin_zero, h50]
        show xB n + (vxB n + ((1 - 0) * 1 - (0 - 0) * 0) * 0.05) * 0.98 * 0.05
          = xB (n + 1)
        rw [show xB (n + 1) = xB n + vxB (n + 1) * 0.05 from rfl,
          show vxB (n + 1) = (vxB n + 1 * 0.05) * 0.98 from rfl]
        ring
      · rw [integrationStep_y, integrationStep_vy]
        show (scenarioB (n + 1)).y + ((scenarioB (n + 1)).vy
            + (((1 : ℝ) - (scenarioB (n + 1)).bias.x)
              * Real.sin (headingStep (scenarioB (n + 1)).heading
                  (scenarioB (n + 1)).gyroRef.z _)
            + ((0 : ℝ) - (scenarioB (n + 1)).bias.y)
              * Real.cos (headingStep (scenarioB (n + 1)).heading
                  (scenarioB (n + 1)).gyroRef.z _)) * _) * 0.98 * _
          = 0
        rw [hH, hG, hBx, hBy, hVy, hY, headingStep_zero, Real.cos_zero,
          Real.sin_zero]
        ring

/-- The damped velocity stays non-negative. -/
theorem vxB_nonneg (n : ℕ) : 0 ≤ vxB n := by
  induction n with
  | zero => exact le_refl 0
  | succ n ih =>
      rw [show vxB (n + 1) = (vxB n + 1 * 0.05) * 0.98 from rfl]
      nlinarith

/-- The damped velocity is strictly positive after the first step. -/
theorem vxB_pos (n : ℕ) : 0 < vxB (n + 1) := by
  have h := vxB_nonneg n
  rw [show vxB (n + 1) = (vxB n + 1 * 0.05) * 0.98 from rfl]
  nlinarith

/-- Damping keeps the velocity strictly below the undamped one. -/
theorem vxB_lt_uvxB (n : ℕ) : vxB (n + 1) < uvxB (n + 1) := by
  induction n with
  | zero =>
      rw [show vxB 1 = (vxB 0 + 1 * 0.05) * 0.98 from rfl,
        show uvxB 1 = (uvxB 0 + 1 * 0.05) * 1 from rfl,
        show vxB 0 = 0 from rfl, show uvxB 0 = 0 from rfl]
      norm_num
  | succ n ih =>
      have hp := vxB_pos n
      rw [show vxB (n + 2) = (vxB (n + 1) + 1 * 0.05) * 0.98 from rfl,
        show uvxB (n + 2) = (uvxB (n + 1) + 1 * 0.05) * 1 from rfl]
      nlinarith

/-- The damped position stays strictly below the undamped one. -/
theorem xB_lt_uxB (n : ℕ) : xB (n + 1) < uxB (n + 1) := by
  induction n with
  | zero =>
      rw [show xB 1 = xB 0 + vxB 1 * 0.05 from rfl,
        show uxB 1 = uxB 0 + uvxB 1 * 0.05 from rfl,
        show xB 0 = 0 from rfl, show uxB 0 = 0 from rfl]
      have h := vxB_lt_uvxB 0
      nlinarith
  | succ n ih =>
      have h := vxB_lt_uvxB (n + 1)
      rw [show xB (n + 2) = xB (n + 1) + vxB (n + 2) * 0.05 from rfl,
        show uxB (n + 2) = uxB (n + 1) + uvxB (n + 2) * 0.05 from rfl]
      have h2 := vxB_lt_uvxB (n + 1)
      nlinarith

/-- The damped position strictly increases each step. -/
theorem xB_strictMono (n : ℕ) : xB n < xB (n + 1) := by
  have h := vxB_pos n
  rw [show xB (n + 1) = xB n + vxB (n + 1) * 0.05 from rfl]
  nlinarith

/-- C6: starting from the freshly reset Tracking state, constant
body-frame acceleration (1, 0) with zero yaw rate and zero bias at
dt = 0.05 s gives, for each of the first 20 integration steps, a
position whose x strictly increases, whose y stays 0, and whose x
stays strictly below the undamped analytic recurrence (damping 1). -/
theorem scenarioB_monotone_damped (k : ℕ) (h1 : 1 ≤ k) (h2 : k ≤ 20) :
    (scenarioB k).x < (scenarioB (k + 1)).x ∧
      (scenarioB (k + 1)).y = 0 ∧
      (scenarioB (k + 1)).x < uxB k := by
  obtain ⟨m, rfl⟩ : ∃ m, k = m + 1 := ⟨k - 1, by omega⟩
  obtain ⟨-, -, -, -, -, -, -, -, hXm, -⟩ := scenarioB_invariant m
  obtain ⟨-, -, -, -, -, -, -, -, hXm1, hYm1⟩ := scenarioB_invariant (m + 1)
  refine ⟨?_, hYm1, ?_⟩
  · rw [hXm, hXm1]
    exact xB_strictMono m
  · rw [hXm1]
    exact xB_lt_uxB m

/-- C6 witness: the first integration step. -/
theorem scenarioB_monotone_damped_witness :
    1 ≤ 1 ∧ 1 ≤ 20 ∧
      ((scenarioB 1).x < (scenarioB 2).x ∧
        (scenarioB 2).y = 0 ∧
        (scenarioB 2).x < uxB 1) :=
  ⟨le_refl 1, by norm_num,
    scenarioB_monotone_damped 1 (le_refl 1) (by norm_num)⟩

/-! ### Claim C10: trajectory always starts at the origin -/

/-- An integration call either leaves the trajectory alone or appends
a single point at the end. -/
theorem updateDR_path_cases (s : DRState) (d : Vec3) (now : ℝ) :
    (updateDeadReckoning s d now).path = s.path ∨
      ∃ p, (updateDeadReckoning s d now).path = s.path ++ [p] := by
  unfold updateDeadReckoning
  cases hL : s.lastTime with
  | none => exact Or.inl rfl
  | some t0 =>
      dsimp only
      split_ifs with h
      · exact Or.inl rfl
      · unfold integrationStep considerStep
        dsimp only
        split_ifs with h2
        · exact Or.inr ⟨_, rfl⟩
        · exact Or.inl rfl

/-- Appending on the right preserves the head of a non-empty list. -/
theorem head?_append_left {α : Type} (l l2 : List α) (a : α)
    (h : l.head? = some a) : (l ++ l2).head? = some a := by
  cases l with
  | nil => simp at h
  | cons x xs => simpa using h

/-- C10: in every reachable session state the trajectory is non-empty
and its first point is {0,0}: it is created as [{0,0}], integration
only appends at the end, and Start/Stop/Reset/Calibrate leave it
untouched or reset it to exactly [{0,0}]. -/
theorem trajectory_first_origin (s : DRState) (h : Reachable s) :
    s.path.head? = some ⟨0, 0⟩ := by
  induction h with
  | init => rfl
  | accel s d now _ ih =>
      unfold accelListener
      dsimp only
      split_ifs with hT
      · rcases updateDR_path_cases { s with accel := d } d now with hp | ⟨p, hp⟩
        · rw [hp]
          exact ih
        · rw [hp]
          exact head?_append_left _ _ _ ih
      · exact ih
  | gyro s d _ ih => exact ih
  | start s _ _ => rfl
  | stop s _ ih => exact ih
  | reset s _ _ => rfl
  | calibrate s _ _ => rfl

/-- C10 witness: the initial state is reachable and its trajectory
starts at the origin. -/
theorem trajectory_first_origin_witness :
    Reachable initialState ∧ initialState.path.head? = some ⟨0, 0⟩ :=
  ⟨Reachable.init, trajectory_first_origin initialState Reachable.init⟩

end NavX
